import Mathlib

/-!
Verification of the Baguettotron chat client against its specification.

The frontend keeps its client state in a single store
(`src/apps/frontend/src/state/store/chatStore.ts`).  JavaScript objects used
as string-keyed records are modelled as association lists (`List (String × α)`)
with the JS semantics of property lookup, spread-update (`{...m, [k]: v}`)
and `delete m[k]`.
-/

namespace Baguettotron

/-- Lookup of a property in a string-keyed JS record (association list). -/
def lookupKey {α : Type} (k : String) : List (String × α) → Option α
  | [] => none
  | (k', v) :: t => if k' = k then some v else lookupKey k t

/-- JS spread-update `{...m, [k]: v}`: replaces the value at `k` in place if
the key is present, otherwise appends the new binding. -/
def setKey {α : Type} (k : String) (v : α) : List (String × α) → List (String × α)
  | [] => [(k, v)]
  | (k', v') :: t => if k' = k then (k, v) :: t else (k', v') :: setKey k v t

/-- JS `delete m[k]`: removes the binding for `k` (the first one; keys of a
JS object are unique). -/
def delKey {α : Type} (k : String) : List (String × α) → List (String × α)
  | [] => []
  | (k', v') :: t => if k' = k then t else (k', v') :: delKey k t

/-- JS `Object.keys`. -/
def keysOf {α : Type} (m : List (String × α)) : List String := m.map Prod.fst

theorem lookupKey_setKey_self {α : Type} (k : String) (v : α) (m : List (String × α)) :
    lookupKey k (setKey k v m) = some v := by
  induction m with
  | nil => simp [setKey, lookupKey]
  | cons hd t ih =>
    obtain ⟨k', v'⟩ := hd
    by_cases h : k' = k <;> simp [setKey, lookupKey, h, ih]

theorem lookupKey_setKey_ne {α : Type} {k k' : String} (h : k' ≠ k) (v : α)
    (m : List (String × α)) : lookupKey k' (setKey k v m) = lookupKey k' m := by
  induction m with
  | nil => simp [setKey, lookupKey, Ne.symm h]
  | cons hd t ih =>
    obtain ⟨k₀, v₀⟩ := hd
    by_cases h₀ : k₀ = k
    · subst h₀
      simp [setKey, lookupKey, Ne.symm h]
    · simp [setKey, lookupKey, h₀, ih]

theorem lookupKey_delKey_ne {α : Type} {k k' : String} (h : k' ≠ k)
    (m : List (String × α)) : lookupKey k' (delKey k m) = lookupKey k' m := by
  induction m with
  | nil => simp [delKey]
  | cons hd t ih =>
    obtain ⟨k₀, v₀⟩ := hd
    by_cases h₀ : k₀ = k
    · subst h₀
      simp [delKey, lookupKey, Ne.symm h]
    · simp [delKey, lookupKey, h₀, ih]

theorem lookupKey_eq_none_of_not_mem {α : Type} {k : String} {m : List (String × α)}
    (h : k ∉ keysOf m) : lookupKey k m = none := by
  induction m with
  | nil => simp [lookupKey]
  | cons hd t ih =>
    obtain ⟨k₀, v₀⟩ := hd
    simp only [keysOf, List.map_cons, List.mem_cons] at h
    push_neg at h
    simp [lookupKey, Ne.symm h.1, ih (by simpa [keysOf] using h.2)]

theorem delKey_of_head {α : Type} (k : String) (sm : α) (t : List (String × α)) :
    delKey k ((k, sm) :: t) = t := by
  simp [delKey]

/-! ## Data model of the chat store (`chatStore.ts`) -/

/-- Message role (`"user" | "assistant"`). -/
inductive Role
  | user
  | assistant
deriving DecidableEq, Repr

/-- Document processing status. -/
inductive DocStatus
  | processing
  | ready
  | failed
deriving DecidableEq, Repr

/-- The `Document` interface of `chatStore.ts`. -/
structure Document where
  id : String
  conversationId : String
  filename : String
  status : DocStatus
  chunkCount : Nat
  uploadTimestamp : String
  errorMessage : Option String
  sse_url : Option String
deriving DecidableEq, Repr

/-- A `Partial<Document>` as passed to `updateDocument`: each field is
optionally present and, when present, overwrites the stored field. -/
structure PartialDocument where
  id : Option String := none
  conversationId : Option String := none
  filename : Option String := none
  status : Option DocStatus := none
  chunkCount : Option Nat := none
  uploadTimestamp : Option String := none
  errorMessage : Option (Option String) := none
  sse_url : Option (Option String) := none
deriving DecidableEq, Repr

/-- JS object spread `{...doc, ...updates}` for a `Partial<Document>`. -/
def mergeDocument (doc : Document) (u : PartialDocument) : Document where
  id := u.id.getD doc.id
  conversationId := u.conversationId.getD doc.conversationId
  filename := u.filename.getD doc.filename
  status := u.status.getD doc.status
  chunkCount := u.chunkCount.getD doc.chunkCount
  uploadTimestamp := u.uploadTimestamp.getD doc.uploadTimestamp
  errorMessage := u.errorMessage.getD doc.errorMessage
  sse_url := u.sse_url.getD doc.sse_url

/-- The `Message` interface of `chatStore.ts`. -/
structure Message where
  role : Role
  content : String
  thinking : Option String
  documents : Option (List Document)
deriving DecidableEq, Repr

/-- The `StreamingMessage` interface of `chatStore.ts` (its `role` field is
the literal type `"assistant"`, so it is left implicit here). -/
structure StreamingMessage where
  content : String
  thinking : String
deriving DecidableEq, Repr

/-- The non-action fields of the `ChatState` store. -/
structure ChatState where
  messagesByConversation : List (String × List Message)
  streamingByConversation : List (String × StreamingMessage)
  documentsByConversation : List (String × List Document)
  isConnected : Bool
  backendReady : Bool
  thinkingMode : Bool
  selectedModel : String
  clientId : Option String
  activeConversationId : Option String
  isSettingsOpen : Bool
deriving DecidableEq, Repr

/-- Store action `addMessage`. -/
def addMessage (conversationId : String) (message : Message) (s : ChatState) : ChatState :=
  let messages := (lookupKey conversationId s.messagesByConversation).getD []
  { s with
    messagesByConversation :=
      setKey conversationId (messages ++ [message]) s.messagesByConversation }

/-- Store action `startStreaming`. -/
def startStreaming (conversationId : String) (s : ChatState) : ChatState :=
  { s with
    streamingByConversation :=
      setKey conversationId ⟨"", ""⟩ s.streamingByConversation }

/-- Store action `updateStreamingMessage`: appends `tokenContent` to the
accumulated content and replaces the thinking string when `thinking` is
provided; warns and returns the state unchanged when no streaming entry
exists for the conversation. -/
def updateStreamingMessage (conversationId : String) (tokenContent : String)
    (thinking : Option String) (s : ChatState) : ChatState :=
  match lookupKey conversationId s.streamingByConversation with
  | none => s
  | some currentStreaming =>
    { s with
      streamingByConversation :=
        setKey conversationId
          ⟨currentStreaming.content ++ tokenContent,
            thinking.getD currentStreaming.thinking⟩
          s.streamingByConversation }

/-- Store action `completeStreaming`: deletes the streaming entry. -/
def completeStreaming (conversationId : String) (s : ChatState) : ChatState :=
  { s with
    streamingByConversation := delKey conversationId s.streamingByConversation }

/-- Store selector `getStreamingMessage` (`null` becomes `none`). -/
def getStreamingMessage (conversationId : String) (s : ChatState) : Option StreamingMessage :=
  lookupKey conversationId s.streamingByConversation

/-- Store selector `isConversationStreaming` (`conversationId in streamingByConversation`). -/
def isConversationStreaming (conversationId : String) (s : ChatState) : Bool :=
  conversationId ∈ keysOf s.streamingByConversation

/-- Store selector `getStreamingConversations` (`Object.keys`). -/
def getStreamingConversations (s : ChatState) : List String :=
  keysOf s.streamingByConversation

/-- Store action `setConnected`. -/
def setConnected (connected : Bool) (s : ChatState) : ChatState :=
  { s with isConnected := connected }

/-- Store action `removeDocument`. -/
def removeDocument (conversationId documentId : String) (s : ChatState) : ChatState :=
  let documents := (lookupKey conversationId s.documentsByConversation).getD []
  { s with
    documentsByConversation :=
      setKey conversationId (documents.filter fun doc => doc.id != documentId)
        s.documentsByConversation }

/-- Store action `updateDocument`. -/
def updateDocument (conversationId documentId : String) (updates : PartialDocument)
    (s : ChatState) : ChatState :=
  let documents := (lookupKey conversationId s.documentsByConversation).getD []
  { s with
    documentsByConversation :=
      setKey conversationId
        (documents.map fun doc =>
          if doc.id == documentId then mergeDocument doc updates else doc)
        s.documentsByConversation }

/-- The payload written to durable storage by the persist middleware: the
`partialize` function of `chatStore.ts` projects the store onto exactly
these five fields. -/
structure PersistedState where
  messagesByConversation : List (String × List Message)
  documentsByConversation : List (String × List Document)
  thinkingMode : Bool
  selectedModel : String
  clientId : Option String
deriving DecidableEq, Repr

/-- The `partialize` function of the persist configuration in `chatStore.ts`. -/
def partialize (s : ChatState) : PersistedState where
  messagesByConversation := s.messagesByConversation
  documentsByConversation := s.documentsByConversation
  thinkingMode := s.thinkingMode
  selectedModel := s.selectedModel
  clientId := s.clientId

/-- C1: for a conversation with a streaming entry, `updateStreamingMessage`
replaces the entry, appending the token content and replacing (resp.
preserving) the thinking according to whether the `thinking` argument is
provided; with no streaming entry the whole store is unchanged (the action
is a total function, so it never throws); other conversations' streaming
entries are never modified. -/
theorem C1_updateStreamingMessage (s : ChatState) (c tokenContent : String)
    (thinking : Option String) :
    (∀ sm, lookupKey c s.streamingByConversation = some sm →
      ∃ sm', lookupKey c (updateStreamingMessage c tokenContent thinking s).streamingByConversation
          = some sm'
        ∧ sm'.content = sm.content ++ tokenContent
        ∧ (∀ th, thinking = some th → sm'.thinking = th)
        ∧ (thinking = none → sm'.thinking = sm.thinking))
    ∧ (lookupKey c s.streamingByConversation = none →
        updateStreamingMessage c tokenContent thinking s = s)
    ∧ (∀ c', c' ≠ c →
        lookupKey c' (updateStreamingMessage c tokenContent thinking s).streamingByConversation
          = lookupKey c' s.streamingByConversation) := by
  refine ⟨?_, ?_, ?_⟩
  · intro sm hsm
    refine ⟨⟨sm.content ++ tokenContent, thinking.getD sm.thinking⟩, ?_, rfl, ?_, ?_⟩
    · simp [updateStreamingMessage, hsm, lookupKey_setKey_self]
    · intro th hth; simp [hth]
    · intro hth; simp [hth]
  · intro hnone
    simp [updateStreamingMessage, hnone]
  · intro c' hc'
    cases hsm : lookupKey c s.streamingByConversation with
    | none => simp [updateStreamingMessage, hsm]
    | some sm => simp [updateStreamingMessage, hsm, lookupKey_setKey_ne hc']

/-- Witness for C1 at a concrete store: one conversation streaming with
content `"ab"`, thinking `"T"`; a token `"cd"` arrives with no thinking. -/
theorem C1_updateStreamingMessage_witness :
    ∃ sm', lookupKey "conv"
        (updateStreamingMessage "conv" "cd" none
          { messagesByConversation := []
            streamingByConversation := [("conv", ⟨"ab", "T"⟩)]
            documentsByConversation := []
            isConnected := true
            backendReady := true
            thinkingMode := true
            selectedModel := "PleIAs/Baguettotron"
            clientId := none
            activeConversationId := none
            isSettingsOpen := false }).streamingByConversation = some sm'
      ∧ sm'.content = "ab" ++ "cd"
      ∧ (∀ th, (none : Option String) = some th → sm'.thinking = th)
      ∧ ((none : Option String) = none → sm'.thinking = "T") :=
  (C1_updateStreamingMessage _ "conv" "cd" none).1 ⟨"ab", "T"⟩ rfl

/-- C8: the persistence projection consists of exactly the five fields
`messagesByConversation`, `documentsByConversation`, `thinkingMode`,
`selectedModel`, `clientId` (the codomain `PersistedState` has no other
field), and it is insensitive to `streamingByConversation`,
`activeConversationId`, `isConnected`, `backendReady` and `isSettingsOpen`:
overwriting those five in-memory-only fields with arbitrary values leaves
the persisted payload unchanged, for every state. -/
theorem C8_partialize_payload (s : ChatState)
    (streaming : List (String × StreamingMessage)) (active : Option String)
    (conn ready settings : Bool) :
    partialize s =
      { messagesByConversation := s.messagesByConversation
        documentsByConversation := s.documentsByConversation
        thinkingMode := s.thinkingMode
        selectedModel := s.selectedModel
        clientId := s.clientId }
    ∧ partialize
        { s with
          streamingByConversation := streaming
          activeConversationId := active
          isConnected := conn
          backendReady := ready
          isSettingsOpen := settings } = partialize s :=
  ⟨rfl, rfl⟩

/-- C9: on a conversation with no `documentsByConversation` entry,
`removeDocument` and `updateDocument` both change the store: each inserts
an entry mapping the conversation to the empty document list, while every
other conversation's document list and every other store field is
unchanged. -/
theorem C9_document_ops_absent_conversation (s : ChatState) (c d : String)
    (u : PartialDocument) (h : lookupKey c s.documentsByConversation = none) :
    (removeDocument c d s ≠ s
      ∧ lookupKey c (removeDocument c d s).documentsByConversation = some []
      ∧ (∀ c', c' ≠ c →
          lookupKey c' (removeDocument c d s).documentsByConversation
            = lookupKey c' s.documentsByConversation)
      ∧ (removeDocument c d s).messagesByConversation = s.messagesByConversation
      ∧ (removeDocument c d s).streamingByConversation = s.streamingByConversation
      ∧ (removeDocument c d s).isConnected = s.isConnected
      ∧ (removeDocument c d s).backendReady = s.backendReady
      ∧ (removeDocument c d s).thinkingMode = s.thinkingMode
      ∧ (removeDocument c d s).selectedModel = s.selectedModel
      ∧ (removeDocument c d s).clientId = s.clientId
      ∧ (removeDocument c d s).activeConversationId = s.activeConversationId
      ∧ (removeDocument c d s).isSettingsOpen = s.isSettingsOpen)
    ∧ (updateDocument c d u s ≠ s
      ∧ lookupKey c (updateDocument c d u s).documentsByConversation = some []
      ∧ (∀ c', c' ≠ c →
          lookupKey c' (updateDocument c d u s).documentsByConversation
            = lookupKey c' s.documentsByConversation)
      ∧ (updateDocument c d u s).messagesByConversation = s.messagesByConversation
      ∧ (updateDocument c d u s).streamingByConversation = s.streamingByConversation
      ∧ (updateDocument c d u s).isConnected = s.isConnected
      ∧ (updateDocument c d u s).backendReady = s.backendReady
      ∧ (updateDocument c d u s).thinkingMode = s.thinkingMode
      ∧ (updateDocument c d u s).selectedModel = s.selectedModel
      ∧ (updateDocument c d u s).clientId = s.clientId
      ∧ (updateDocument c d u s).activeConversationId = s.activeConversationId
      ∧ (updateDocument c d u s).isSettingsOpen = s.isSettingsOpen) := by
  have hrem : lookupKey c (removeDocument c d s).documentsByConversation = some [] := by
    simp [removeDocument, h, lookupKey_setKey_self]
  have hupd : lookupKey c (updateDocument c d u s).documentsByConversation = some [] := by
    simp [updateDocument, h, lookupKey_setKey_self]
  refine ⟨⟨?_, hrem, ?_, rfl, rfl, rfl, rfl, rfl, rfl, rfl, rfl, rfl⟩,
    ⟨?_, hupd, ?_, rfl, rfl, rfl, rfl, rfl, rfl, rfl, rfl, rfl⟩⟩
  · intro heq
    rw [heq] at hrem
    rw [h] at hrem
    exact Option.noConfusion hrem
  · intro c' hc'
    simp [removeDocument, h, lookupKey_setKey_ne hc']
  · intro heq
    rw [heq] at hupd
    rw [h] at hupd
    exact Option.noConfusion hupd
  · intro c' hc'
    simp [updateDocument, h, lookupKey_setKey_ne hc']

/-- A concrete store state with empty maps, matching the store's initial
values, used by witnesses. -/
def initialState : ChatState where
  messagesByConversation := []
  streamingByConversation := []
  documentsByConversation := []
  isConnected := false
  backendReady := false
  thinkingMode := true
  selectedModel := "PleIAs/Baguettotron"
  clientId := none
  activeConversationId := none
  isSettingsOpen := false

/-- Witness for C9 at a concrete store whose document map is empty. -/
theorem C9_document_ops_absent_conversation_witness :
    removeDocument "conv" "doc" initialState ≠ initialState :=
  (C9_document_ops_absent_conversation initialState "conv" "doc" {} rfl).1.1

theorem mem_keysOf_of_lookupKey {α : Type} {k : String} {v : α}
    {m : List (String × α)} (h : lookupKey k m = some v) : k ∈ keysOf m := by
  induction m with
  | nil => simp [lookupKey] at h
  | cons hd t ih =>
    obtain ⟨k₀, v₀⟩ := hd
    by_cases h₀ : k₀ = k
    · simp [keysOf, h₀]
    · simp only [lookupKey, h₀, if_false] at h
      have hmem := ih h
      simp only [keysOf, List.map_cons, List.mem_cons]
      exact Or.inr (by simpa [keysOf] using hmem)

theorem lookupKey_delKey_self {α : Type} {k : String} {m : List (String × α)}
    (h : (keysOf m).Nodup) : lookupKey k (delKey k m) = none := by
  induction m with
  | nil => simp [delKey, lookupKey]
  | cons hd t ih =>
    obtain ⟨k₀, v₀⟩ := hd
    simp only [keysOf, List.map_cons, List.nodup_cons] at h
    by_cases h₀ : k₀ = k
    · subst h₀
      simpa [delKey] using lookupKey_eq_none_of_not_mem h.1
    · simp [delKey, lookupKey, h₀, ih h.2]

/-! ## WebSocket manager (`useWebSocketManager`)

The manager's mutable refs (`pendingRequestsRef`, `connectionLostHandledRef`,
`wsRef`) together with the chat store form the state acted on by the
`ws.onclose` handler and by `stopStreaming`.  `wsRef.current` is abstracted
to the boolean `wsPresent`; closing the socket is recorded in
`socketCloseRequested`. -/

structure WsState where
  chat : ChatState
  pendingRequests : List String
  connectionLostHandled : Bool
  wsPresent : Bool
  socketCloseRequested : Bool

/-- The durable message persisted for a streaming conversation when the
connection is lost (`ws.onclose` loop body): with non-empty partial content
the content is kept and suffixed, and the accumulated thinking is carried
when non-empty; otherwise the message is exactly `(Connection lost)`. -/
def connectionLostMessage (sm : Option StreamingMessage) : Message :=
  match sm with
  | some sm =>
    if sm.content = "" then
      ⟨.assistant, "(Connection lost)", none, none⟩
    else
      ⟨.assistant, sm.content ++ "\n\n(Connection lost)",
        if sm.thinking = "" then none else some sm.thinking, none⟩
  | none => ⟨.assistant, "(Connection lost)", none, none⟩

/-- Body of the `for (const convId of streamingConversations)` loop in
`ws.onclose`: reads the current streaming message, appends the
connection-lost message, and clears the streaming entry. -/
def handleLostConversation (convId : String) (chat : ChatState) : ChatState :=
  let sm := getStreamingMessage convId chat
  completeStreaming convId (addMessage convId (connectionLostMessage sm) chat)

/-- The connection-lost block of `ws.onclose`: iterates over the
conversations streaming at close time. -/
def handleConnectionLost (chat : ChatState) : ChatState :=
  (getStreamingConversations chat).foldl
    (fun ch convId => handleLostConversation convId ch) chat

/-- The `ws.onclose` handler (reconnect scheduling aside): marks the
connection lost, and — unless this closure was already handled — persists a
connection-lost message for every streaming conversation, clears all
streaming state and clears the pending-request map. -/
def onClose (s : WsState) : WsState :=
  let s₁ := { s with chat := setConnected false s.chat }
  if s₁.connectionLostHandled then s₁
  else
    { s₁ with
      connectionLostHandled := true
      chat := handleConnectionLost s₁.chat
      pendingRequests := [] }

/-- `stopStreaming(conversationId)` of `useWebSocketManager`: no-op unless
the conversation is streaming; when a socket exists, persists the partial
content (only if non-empty), clears the streaming entry and the pending
request, and closes the socket. -/
def stopStreamingWs (conversationId : String) (s : WsState) : WsState :=
  if ¬ isConversationStreaming conversationId s.chat then s
  else
    let sm := getStreamingMessage conversationId s.chat
    if s.wsPresent then
      let chat :=
        match sm with
        | some sm =>
          if sm.content = "" then s.chat
          else
            addMessage conversationId
              ⟨.assistant, sm.content,
                if sm.thinking = "" then none else some sm.thinking, none⟩
              s.chat
        | none => s.chat
      { s with
        connectionLostHandled := true
        chat := completeStreaming conversationId chat
        pendingRequests := s.pendingRequests.filter fun x => x != conversationId
        socketCloseRequested := true }
    else s

theorem addMessage_streaming (c : String) (m : Message) (s : ChatState) :
    (addMessage c m s).streamingByConversation = s.streamingByConversation := rfl

theorem completeStreaming_messages (c : String) (s : ChatState) :
    (completeStreaming c s).messagesByConversation = s.messagesByConversation := rfl

/-- Behaviour of the `ws.onclose` loop over the captured list of streaming
conversations, by induction on the streaming map (whose keys the captured
list is): all streaming entries are removed and each conversation's message
list gains exactly the connection-lost message. -/
theorem handleConnectionLost_fold (l : List (String × StreamingMessage)) :
    ∀ chat : ChatState, chat.streamingByConversation = l → (keysOf l).Nodup →
      ((keysOf l).foldl (fun ch convId => handleLostConversation convId ch)
          chat).streamingByConversation = []
      ∧ (∀ c sm, lookupKey c l = some sm →
          lookupKey c ((keysOf l).foldl
              (fun ch convId => handleLostConversation convId ch)
              chat).messagesByConversation
            = some ((lookupKey c chat.messagesByConversation).getD []
                ++ [connectionLostMessage (some sm)]))
      ∧ (∀ c, c ∉ keysOf l →
          lookupKey c ((keysOf l).foldl
              (fun ch convId => handleLostConversation convId ch)
              chat).messagesByConversation
            = lookupKey c chat.messagesByConversation) := by
  induction l with
  | nil =>
    intro chat hstr _
    simp [keysOf, hstr, lookupKey]
  | cons hd t ih =>
    intro chat hstr hnodup
    obtain ⟨k, sm₀⟩ := hd
    have hkeys : keysOf ((k, sm₀) :: t) = k :: keysOf t := rfl
    rw [hkeys, List.nodup_cons] at hnodup
    have hk : lookupKey k chat.streamingByConversation = some sm₀ := by
      rw [hstr]; simp [lookupKey]
    have hstep : (handleLostConversation k chat).streamingByConversation = t := by
      simp only [handleLostConversation, getStreamingMessage, completeStreaming,
        addMessage_streaming]
      rw [hstr]
      exact delKey_of_head k sm₀ t
    have hstepm : (handleLostConversation k chat).messagesByConversation
        = setKey k ((lookupKey k chat.messagesByConversation).getD []
            ++ [connectionLostMessage (some sm₀)]) chat.messagesByConversation := by
      simp [handleLostConversation, getStreamingMessage, hk, completeStreaming_messages,
        addMessage]
    obtain ⟨ih1, ih2, ih3⟩ :=
      ih (handleLostConversation k chat) hstep hnodup.2
    rw [hkeys, List.foldl_cons]
    refine ⟨ih1, ?_, ?_⟩
    · intro c sm hc
      by_cases hck : c = k
      · subst hck
        simp only [lookupKey, if_pos rfl] at hc
        injection hc with hc
        subst hc
        rw [ih3 c hnodup.1, hstepm, lookupKey_setKey_self]
      · have hkc : ¬ k = c := fun h => hck h.symm
        simp only [lookupKey, if_neg hkc] at hc
        rw [ih2 c sm hc, hstepm, lookupKey_setKey_ne hck]
    · intro c hc
      rw [List.mem_cons, not_or] at hc
      rw [ih3 c hc.2, hstepm, lookupKey_setKey_ne hc.1]

/-- C2: when the close handler runs with the connection-lost guard unset,
every streaming conversation gets exactly one durable assistant message
appended — partial content suffixed with the connection-lost marker and
carrying non-empty thinking, or exactly `(Connection lost)` when the
content is empty — after which no conversation is streaming, the pending
requests are cleared, and the connection is marked closed. -/
theorem C2_onclose_connection_lost (s : WsState)
    (hguard : s.connectionLostHandled = false)
    (hnodup : (keysOf s.chat.streamingByConversation).Nodup) :
    (onClose s).chat.streamingByConversation = []
    ∧ (onClose s).pendingRequests = []
    ∧ (∀ c sm, lookupKey c s.chat.streamingByConversation = some sm →
        lookupKey c (onClose s).chat.messagesByConversation
          = some ((lookupKey c s.chat.messagesByConversation).getD []
              ++ [if sm.content = "" then
                    ⟨.assistant, "(Connection lost)", none, none⟩
                  else
                    ⟨.assistant, sm.content ++ "\n\n(Connection lost)",
                      if sm.thinking = "" then none else some sm.thinking,
                      none⟩])) := by
  obtain ⟨h1, h2, _⟩ :=
    handleConnectionLost_fold s.chat.streamingByConversation
      (setConnected false s.chat) rfl hnodup
  have honc : onClose s
      = { s with
          chat := handleConnectionLost (setConnected false s.chat)
          connectionLostHandled := true
          pendingRequests := [] } := by
    simp [onClose, hguard]
  refine ⟨?_, ?_, ?_⟩
  · rw [honc]
    exact h1
  · rw [honc]
  · intro c sm hc
    rw [honc]
    have h := h2 c sm hc
    simpa [connectionLostMessage, handleConnectionLost, getStreamingConversations,
      setConnected] using h

/-- A concrete WebSocket-manager state used by witnesses: two conversations
streaming, one with partial content and thinking, one still empty. -/
def wsSample : WsState where
  chat :=
    { initialState with
      streamingByConversation := [("a", ⟨"Hello", "T"⟩), ("b", ⟨"", "X"⟩)]
      isConnected := true }
  pendingRequests := ["a", "b"]
  connectionLostHandled := false
  wsPresent := true
  socketCloseRequested := false

/-- Witness for C2 at `wsSample`. -/
theorem C2_onclose_connection_lost_witness :
    (onClose wsSample).chat.streamingByConversation = []
    ∧ (onClose wsSample).pendingRequests = []
    ∧ lookupKey "a" (onClose wsSample).chat.messagesByConversation
        = some [⟨.assistant, "Hello" ++ "\n\n(Connection lost)",
            if ("T" : String) = "" then none else some "T", none⟩] :=
  ⟨(C2_onclose_connection_lost wsSample rfl (by decide)).1,
    (C2_onclose_connection_lost wsSample rfl (by decide)).2.1,
    by
      have h := (C2_onclose_connection_lost wsSample rfl (by decide)).2.2
        "a" ⟨"Hello", "T"⟩ rfl
      simpa using h⟩

/-- C10: stopping a streaming conversation persists the accumulated partial
content verbatim (no connection-lost suffix, thinking carried when
non-empty) only when that content is non-empty; with empty content the
message map is untouched; in both cases the streaming entry and pending
request for the conversation are removed (others kept) and the socket close
is requested. -/
theorem C10_stopStreaming (s : WsState) (c : String) (sm : StreamingMessage)
    (hsm : lookupKey c s.chat.streamingByConversation = some sm)
    (hws : s.wsPresent = true)
    (hnodup : (keysOf s.chat.streamingByConversation).Nodup) :
    (¬ sm.content = "" →
        lookupKey c (stopStreamingWs c s).chat.messagesByConversation
          = some ((lookupKey c s.chat.messagesByConversation).getD []
              ++ [⟨.assistant, sm.content,
                    if sm.thinking = "" then none else some sm.thinking, none⟩]))
    ∧ (sm.content = "" →
        (stopStreamingWs c s).chat.messagesByConversation
          = s.chat.messagesByConversation)
    ∧ lookupKey c (stopStreamingWs c s).chat.streamingByConversation = none
    ∧ (∀ c', c' ≠ c →
        lookupKey c' (stopStreamingWs c s).chat.streamingByConversation
          = lookupKey c' s.chat.streamingByConversation)
    ∧ (stopStreamingWs c s).pendingRequests
        = s.pendingRequests.filter (fun x => x != c)
    ∧ (stopStreamingWs c s).socketCloseRequested = true := by
  have hstreaming : isConversationStreaming c s.chat = true := by
    simp only [isConversationStreaming, decide_eq_true_eq]
    exact mem_keysOf_of_lookupKey hsm
  by_cases hempty : sm.content = ""
  · have heq : stopStreamingWs c s
        = { s with
            connectionLostHandled := true
            chat := completeStreaming c s.chat
            pendingRequests := s.pendingRequests.filter fun x => x != c
            socketCloseRequested := true } := by
      simp [stopStreamingWs, hstreaming, hws, getStreamingMessage, hsm, hempty]
    rw [heq]
    refine ⟨fun h => absurd hempty h, fun _ => completeStreaming_messages c s.chat,
      ?_, ?_, rfl, rfl⟩
    · exact lookupKey_delKey_self hnodup
    · intro c' hc'
      exact lookupKey_delKey_ne hc' _
  · have heq : stopStreamingWs c s
        = { s with
            connectionLostHandled := true
            chat := completeStreaming c (addMessage c
              ⟨.assistant, sm.content,
                if sm.thinking = "" then none else some sm.thinking, none⟩ s.chat)
            pendingRequests := s.pendingRequests.filter fun x => x != c
            socketCloseRequested := true } := by
      simp [stopStreamingWs, hstreaming, hws, getStreamingMessage, hsm, hempty]
    rw [heq]
    refine ⟨fun _ => ?_, fun h => absurd h hempty, ?_, ?_, rfl, rfl⟩
    · rw [completeStreaming_messages]
      simp [addMessage, lookupKey_setKey_self]
    · exact lookupKey_delKey_self (by
        simpa [completeStreaming, addMessage_streaming, keysOf] using hnodup)
    · intro c' hc'
      rw [show (completeStreaming c (addMessage c
          ⟨.assistant, sm.content,
            if sm.thinking = "" then none else some sm.thinking, none⟩
          s.chat)).streamingByConversation
          = delKey c s.chat.streamingByConversation from rfl]
      exact lookupKey_delKey_ne hc' _

/-- Witness for C10 at `wsSample`, stopping conversation `"a"`. -/
theorem C10_stopStreaming_witness :
    lookupKey "a" (stopStreamingWs "a" wsSample).chat.messagesByConversation
      = some [⟨.assistant, "Hello",
          if ("T" : String) = "" then none else some "T", none⟩]
    ∧ lookupKey "a" (stopStreamingWs "a" wsSample).chat.streamingByConversation = none
    ∧ (stopStreamingWs "a" wsSample).socketCloseRequested = true :=
  ⟨by
      have h := (C10_stopStreaming wsSample "a" ⟨"Hello", "T"⟩ rfl rfl
        (by decide)).1 (by decide)
      simpa using h,
    (C10_stopStreaming wsSample "a" ⟨"Hello", "T"⟩ rfl rfl (by decide)).2.2.1,
    (C10_stopStreaming wsSample "a" ⟨"Hello", "T"⟩ rfl rfl (by decide)).2.2.2.2.2⟩

/-! ## Conversation reconciliation (`chat-page.tsx`, effect at lines 43-106)

`reconcileMessages` returns the message list held for the conversation
after the effect runs, given the fetched server list and the local list. -/

/-- The pairwise role/content/thinking difference test (`serverMessages.some`). -/
def hasChanges (serverMessages existingMessages : List Message) : Bool :=
  (serverMessages.zip existingMessages).any fun p =>
    p.1.role != p.2.role || p.1.content != p.2.content || p.1.thinking != p.2.thinking

/-- The positional document-preserving merge used by the equal-length branch
(and written, unreachably, in the longer-server branch): a server message
adopts the local message's `documents` when the position exists locally,
the roles match, and the local message carries a `documents` field. -/
def mergeDocumentsPositional (serverMessages existingMessages : List Message) :
    List Message :=
  serverMessages.mapIdx fun i serverMsg =>
    match existingMessages[i]? with
    | some localMsg =>
      if localMsg.role == serverMsg.role && localMsg.documents.isSome then
        { serverMsg with documents := localMsg.documents }
      else serverMsg
    | none => serverMsg

/-- The reconciliation effect of `ChatPage`: streaming conversations are
left alone; with no local messages or with a strictly longer server list
the server list is adopted wholesale (early returns); equal lengths are
merged positionally when they differ; the trailing `else if` repeats the
strictly-longer test and is therefore unreachable. -/
def reconcileMessages (isStreaming : Bool)
    (serverMessages existingMessages : List Message) : List Message :=
  if isStreaming then existingMessages
  else if existingMessages.length = 0 then serverMessages
  else if serverMessages.length > existingMessages.length then serverMessages
  else if serverMessages.length = existingMessages.length then
    if hasChanges serverMessages existingMessages then
      mergeDocumentsPositional serverMessages existingMessages
    else existingMessages
  else if serverMessages.length > existingMessages.length then
    mergeDocumentsPositional serverMessages existingMessages
  else existingMessages

/-- A concrete attached document for the C4 failing input. -/
def docC4 : Document :=
  ⟨"doc-1", "conv-1", "notes.txt", .ready, 1, "2024-01-01T00:00:00Z", none, none⟩

/-- Local list: one user message carrying an attached document. -/
def localC4 : List Message := [⟨.user, "hi", none, some [docC4]⟩]

/-- Server list: the same user message (documents not echoed back) plus a
new assistant reply — strictly more messages than local. -/
def serverC4 : List Message :=
  [⟨.user, "hi", none, none⟩, ⟨.assistant, "yo", none, none⟩]

/-- C4 (code bug): on a non-streaming fetch where the server has strictly
more messages, the code adopts the server list wholesale, so the local
user message's `documents` field is dropped instead of being carried
forward as the claim (and the code's own unreachable merge branch)
prescribes. -/
theorem C4_reconcile_drops_documents :
    reconcileMessages false serverC4 localC4 = serverC4
    ∧ mergeDocumentsPositional serverC4 localC4
        = [⟨.user, "hi", none, some [docC4]⟩, ⟨.assistant, "yo", none, none⟩]
    ∧ reconcileMessages false serverC4 localC4
        ≠ mergeDocumentsPositional serverC4 localC4 := by
  refine ⟨by decide, by decide, by decide⟩

/-! ## Models catalog fetch (`lib/action.ts` and `hooks/useModels.ts`)

The catalog entries themselves are never inspected by the fetch wrappers,
so a `ModelConfig` is kept as an opaque payload here. -/

/-- Opaque models-catalog entry (its fields are irrelevant to the fetch
error handling). -/
def ModelConfig : Type := String

instance : DecidableEq ModelConfig := fun a b => String.decEq a b

/-- Outcome of the underlying `fetch` of the models endpoint. -/
inductive FetchOutcome where
  | ok (body : List ModelConfig)
  | httpError (status : Nat)
  | networkFailure
deriving DecidableEq

/-- Outcome observed by the caller of an async function: a resolved list or
a thrown/rejected error. -/
inductive QueryOutcome where
  | resolved (models : List ModelConfig)
  | thrown
deriving DecidableEq

/-- `getModels` of `lib/action.ts`: returns the body on success and the
empty list on a non-ok response or a network failure (try/catch). -/
def getModels : FetchOutcome → List ModelConfig
  | .ok body => body
  | .httpError _ => []
  | .networkFailure => []

/-- The `queryFn` of the `useModels` hook: `throw new Error(...)` on a
non-ok response, and a rejected `fetch` propagates to the caller. -/
def useModelsQueryFn : FetchOutcome → QueryOutcome
  | .ok body => .resolved body
  | .httpError _ => .thrown
  | .networkFailure => .thrown

/-- C5 counterexample: the client data-fetching hook for the models
resource does NOT resolve to an empty list on a non-success response — its
query function throws. -/
theorem C5_useModels_throws_counterexample :
    useModelsQueryFn (.httpError 500) = .thrown
    ∧ QueryOutcome.thrown ≠ QueryOutcome.resolved [] := by
  refine ⟨rfl, by decide⟩

/-- C5 (amended): the server-side catalog fetch `getModels` resolves to the
empty list on any non-success response or network failure (and to the body
on success), while the `useModels` hook's query function resolves only on
success and throws on non-success or network failure. -/
theorem C5_models_fetch_error_handling :
    (∀ status, getModels (.httpError status) = [])
    ∧ getModels .networkFailure = []
    ∧ (∀ body, getModels (.ok body) = body)
    ∧ (∀ status, useModelsQueryFn (.httpError status) = .thrown)
    ∧ useModelsQueryFn .networkFailure = .thrown
    ∧ (∀ body, useModelsQueryFn (.ok body) = .resolved body) :=
  ⟨fun _ => rfl, rfl, fun _ => rfl, fun _ => rfl, rfl, fun _ => rfl⟩

/-! ## Auto-title generation (`MessageInput.tsx` handleSubmit)

Character-level string operations are modelled on `List Char` (the JS
string's characters). -/

/-- Character list of a JS string. -/
abbrev Chars := List Char

/-- JS `String.prototype.lastIndexOf` for a single character. -/
def lastIndexOfChar (c : Char) : Chars → Option Nat
  | [] => none
  | x :: t =>
    match lastIndexOfChar c t with
    | some i => some (i + 1)
    | none => if x = c then some 0 else none

theorem lastIndexOfChar_cons_zero {c x : Char} {t : Chars}
    (h : lastIndexOfChar c (x :: t) = some 0) : x = c := by
  simp only [lastIndexOfChar] at h
  cases h' : lastIndexOfChar c t with
  | some i => rw [h'] at h; simp at h
  | none =>
    rw [h'] at h
    by_cases hx : x = c
    · exact hx
    · simp [hx] at h

/-- The auto-title computation of `handleSubmit` (both composers): first 50
characters; if the message is longer than 50, cut back to the last space
(JS `lastIndexOf(' ')`, only when its index is positive) and append `...`. -/
def autoTitle (userMessage : Chars) : Chars :=
  let title := userMessage.take 50
  if userMessage.length > 50 then
    (match lastIndexOfChar ' ' title with
      | some i => if i > 0 then title.take i else title
      | none => title) ++ ("...".data)
  else title

/-- C7 claim-side definition, following the spec's words: a message of
length at most 50 is the title verbatim with no suffix; a longer message
yields its first 50 characters truncated back to the last space (when one
exists) with `...` appended. -/
def specAutoTitle (userMessage : Chars) : Chars :=
  if userMessage.length ≤ 50 then userMessage
  else
    let head50 := userMessage.take 50
    (match lastIndexOfChar ' ' head50 with
      | some i => head50.take i
      | none => head50) ++ ("...".data)

/-- C7: for every trimmed first message (in particular one not starting
with a space), the code's auto-title agrees with the claim's description:
at most 50 characters is used verbatim with no suffix, longer messages are
truncated to the last space within the first 50 characters and suffixed
with `...`. -/
theorem C7_autoTitle_spec (msg : Chars) (h : msg.head? ≠ some ' ') :
    autoTitle msg = specAutoTitle msg := by
  by_cases hlen : msg.length > 50
  · have hle : ¬ msg.length ≤ 50 := by omega
    simp only [autoTitle, specAutoTitle, if_pos hlen, if_neg hle]
    cases hfind : lastIndexOfChar ' ' (msg.take 50) with
    | none => simp
    | some i =>
      cases i with
      | zero =>
        exfalso
        cases msg with
        | nil => simp at hlen
        | cons x t =>
          have hx : x = ' ' := by
            rw [show (x :: t).take 50 = x :: t.take 49 from rfl] at hfind
            exact lastIndexOfChar_cons_zero hfind
          exact h (by simp [hx])
      | succ n => simp
  · have hle : msg.length ≤ 50 := by omega
    simp only [autoTitle, specAutoTitle, if_neg hlen, if_pos hle]
    exact List.take_of_length_le hle

/-- Witness for C7 on a concrete 58-character message. -/
theorem C7_autoTitle_spec_witness :
    autoTitle ("Explain how retrieval augmented generation pipelines work".data)
      = specAutoTitle
          ("Explain how retrieval augmented generation pipelines work".data) :=
  C7_autoTitle_spec _ (by decide)

/-! ## Markdown streaming buffer (`useBufferedLineAnimation`)

The chunk-extraction `while` loop and its `isMarkdownComplete` helper.
Recursions that consume a data-dependent number of characters use explicit
fuel; with fuel at least the input length the fuel never runs out. -/

/-- The triple-backtick fence. -/
def tripleBacktick : Chars := ['`', '`', '`']

/-- Index of the first occurrence of a (non-empty) pattern,
JS `String.prototype.indexOf`. -/
def findSub (pat : Chars) : Chars → Option Nat
  | [] => none
  | c :: t => if pat.isPrefixOf (c :: t) then some 0 else (findSub pat t).map (· + 1)

/-- Non-overlapping left-to-right occurrence count of a non-empty pattern
(the length of `text.match(/pat/g)`). -/
def countSubGo (pat : Chars) : Nat → Chars → Nat
  | 0, _ => 0
  | _ + 1, [] => 0
  | fuel + 1, c :: t =>
    if pat.isPrefixOf (c :: t) then 1 + countSubGo pat fuel ((c :: t).drop pat.length)
    else countSubGo pat fuel t

/-- `countSub pat l` counts non-overlapping occurrences of `pat` in `l`. -/
def countSub (pat l : Chars) : Nat := countSubGo pat (l.length + 1) l

/-- JS `text.replace(/` ``` `[\s\S]*?` ``` `/g, '')`: repeatedly removes the
lazily-matched span from each opening fence to the next fence after it. -/
def removeCodeBlocksGo : Nat → Chars → Chars
  | 0, l => l
  | fuel + 1, l =>
    match findSub tripleBacktick l with
    | none => l
    | some i =>
      let rest := l.drop (i + 3)
      match findSub tripleBacktick rest with
      | none => l
      | some j => l.take i ++ removeCodeBlocksGo fuel (rest.drop (j + 3))

/-- Removal of complete triple-backtick code blocks. -/
def removeCodeBlocks (l : Chars) : Chars := removeCodeBlocksGo (l.length + 1) l

/-- The `isMarkdownComplete` helper of `useBufferedLineAnimation`: odd fence
count fails; single backticks are counted with complete code blocks
removed; `**`, `__` and `~~` are counted over the FULL text (including any
fenced span). -/
def isMarkdownComplete (text : Chars) : Bool :=
  if countSub tripleBacktick text % 2 == 1 then false
  else
    let textWithoutCodeBlocks := removeCodeBlocks text
    if textWithoutCodeBlocks.count '`' % 2 == 1 then false
    else if countSub ['*', '*'] text % 2 == 1 then false
    else if countSub ['_', '_'] text % 2 == 1 then false
    else if countSub ['~', '~'] text % 2 == 1 then false
    else true

/-- C6 claim-side completeness predicate, following the claim's words: even
fence count, and — outside of any triple-backtick-fenced span — even counts
of single backticks, `**`, `__` and `~~`. -/
def specMarkdownComplete (text : Chars) : Bool :=
  (countSub tripleBacktick text % 2 == 0)
    && ((removeCodeBlocks text).count '`' % 2 == 0)
    && (countSub ['*', '*'] (removeCodeBlocks text) % 2 == 0)
    && (countSub ['_', '_'] (removeCodeBlocks text) % 2 == 0)
    && (countSub ['~', '~'] (removeCodeBlocks text) % 2 == 0)

/-- The chunk-extraction `while` loop of the content-processing effect:
accumulates newline-terminated candidate chunks and flushes the
accumulation as one completed line once `isMarkdownComplete` holds.
Returns the flushed lines and the final buffer. -/
def extractGo : Nat → Chars → Chars → List Chars → List Chars × Chars
  | 0, bufferContent, acc, out => (out, acc ++ bufferContent)
  | fuel + 1, bufferContent, acc, out =>
    match findSub ['\n'] bufferContent with
    | none => (out, acc ++ bufferContent)
    | some idx =>
      let chunk := bufferContent.take (idx + 1)
      let acc' := acc ++ chunk
      if isMarkdownComplete acc' then
        extractGo fuel (bufferContent.drop acc'.length) [] (out ++ [acc'])
      else
        extractGo fuel (bufferContent.drop (idx + 1)) acc' out

/-- One run of the extraction loop over the current buffer (the effect body
after new content is appended): flushed complete chunks and the remaining
buffer (`isBuffering` is its non-emptiness). -/
def processBuffer (buffer : Chars) : List Chars × Chars :=
  extractGo (buffer.length + 1) buffer [] []

theorem extractGo_chunks_complete (fuel : Nat) :
    ∀ (bufferContent acc : Chars) (out : List Chars),
      (∀ c ∈ out, isMarkdownComplete c = true) →
      ∀ c ∈ (extractGo fuel bufferContent acc out).1, isMarkdownComplete c = true := by
  induction fuel with
  | zero => intro buf acc out hout c hc; exact hout c hc
  | succ n ih =>
    intro buf acc out hout c hc
    rw [extractGo] at hc
    cases hfind : findSub ['\n'] buf with
    | none => rw [hfind] at hc; exact hout c hc
    | some idx =>
      rw [hfind] at hc
      simp only at hc
      by_cases hcomp : isMarkdownComplete (acc ++ buf.take (idx + 1)) = true
      · rw [if_pos hcomp] at hc
        refine ih _ _ _ ?_ c hc
        intro c' hc'
        rcases List.mem_append.mp hc' with h | h
        · exact hout c' h
        · rw [List.mem_singleton] at h
          subst h
          exact hcomp
      · rw [if_neg hcomp] at hc
        exact ih _ _ _ hout c hc

/-- C6 (amended): a candidate chunk is flushed only when the accumulated
text satisfies the code's completeness test — even fence count, even count
of single backticks outside complete fenced spans, and even counts of
`**`, `__`, `~~` over the ENTIRE accumulated text including fenced spans;
streaming `"This is **bold\n"` flushes nothing and leaves the buffer
non-empty, and after `"text** done\n"` arrives exactly one line holding the
whole accumulated text is flushed. -/
theorem C6_markdown_buffering (buffer : Chars) :
    (∀ c ∈ (processBuffer buffer).1, isMarkdownComplete c = true)
    ∧ processBuffer ("This is **bold\n".data) = ([], "This is **bold\n".data)
    ∧ processBuffer ("This is **bold\ntext** done\n".data)
        = ([("This is **bold\ntext** done\n".data)], []) := by
  refine ⟨?_, rfl, rfl⟩
  intro c hc
  exact extractGo_chunks_complete _ _ _ _ (by intro c' hc'; cases hc') c hc

/-- Witness for C6: the single line `"ab\n"` is flushed and is complete. -/
theorem C6_markdown_buffering_witness :
    ("ab\n".data) ∈ (processBuffer ("ab\n".data)).1
    ∧ isMarkdownComplete ("ab\n".data) = true :=
  ⟨by decide, (C6_markdown_buffering ("ab\n".data)).1 _ (by decide)⟩

/-- C6 counterexample: the claim counts `**` only outside fenced spans, so
for the accumulated line ``"```**```**\n"`` it forbids a flush (one `**`
outside the fence); the code counts `**` over the entire text (two
occurrences) and flushes the line. -/
theorem C6_fence_bold_counterexample :
    processBuffer ("```**```**\n".data) = ([("```**```**\n".data)], [])
    ∧ specMarkdownComplete ("```**```**\n".data) = false
    ∧ isMarkdownComplete ("```**```**\n".data) = true :=
  ⟨rfl, rfl, rfl⟩

/-! ## Thinking-trace parser (`thinking/model.ts`, `ResilientThinkingParser`)

The parser receives the cumulative thinking stream and re-parses it from
scratch on every call, tracking only how many sections were already
emitted. -/

/-- JS whitespace as used by `trim` on the strings that occur here. -/
def wsChar (c : Char) : Bool :=
  c = ' ' || c = '\n' || c = '\t' || c = '\r'

/-- JS `String.prototype.trim`. -/
def trimJs (l : Chars) : Chars :=
  ((l.dropWhile wsChar).reverse.dropWhile wsChar).reverse

/-- The `'###'` section marker. -/
def markerHash : Chars := ['#', '#', '#']

/-- JS `structuredPart.split(/###\s+/)`: splits at every occurrence of
`###` followed by (greedily consumed) whitespace, scanning left to right;
fuelled, fuel at least the input length suffices. -/
def splitMarkerGo : Nat → Chars → Chars → List Chars
  | 0, l, cur => [cur.reverse ++ l]
  | fuel + 1, l, cur =>
    match l with
    | [] => [cur.reverse]
    | '#' :: '#' :: '#' :: c :: t =>
      if wsChar c then cur.reverse :: splitMarkerGo fuel (t.dropWhile wsChar) []
      else splitMarkerGo fuel ('#' :: '#' :: c :: t) ('#' :: cur)
    | c :: t => splitMarkerGo fuel t (c :: cur)

/-- Split on the `###`-plus-whitespace marker regex. -/
def splitMarkerWs (l : Chars) : List Chars := splitMarkerGo (l.length + 1) l []

/-- A parsed thinking section (`ThinkingSection` of `thinking/types.ts`,
title and content only). -/
structure ThinkingSection where
  title : Chars
  content : Chars
deriving DecidableEq, Repr

/-- `parseStructuredSection`: first line (trimmed) is the title, the
remaining lines (joined and trimmed) are the content, defaulting to `...`;
an empty title yields no section. -/
def parseStructuredSection (raw : Chars) : Option ThinkingSection :=
  let lines := raw.splitOn '\n'
  let title := trimJs (lines.headD [])
  let content := trimJs (List.intercalate ['\n'] lines.tail)
  if title.isEmpty then none
  else some ⟨title, if content.isEmpty then "...".data else content⟩

/-- The structured sections of the part of the stream from the first
marker on: split on the marker, drop blank parts, parse each. -/
def structuredSections (part : Chars) : List ThinkingSection :=
  ((splitMarkerWs part).filter (fun p => !(trimJs p).isEmpty)).filterMap
    parseStructuredSection

/-- The full section list computed by `extractCompleteSections`: a
synthesized leading section (first five characters plus `...` as title)
when text precedes the first marker, then the structured sections. -/
def allSectionsOf (full : Chars) : List ThinkingSection :=
  match findSub markerHash full with
  | none => []
  | some i =>
    let leadingContent := trimJs (full.take i)
    (if leadingContent.isEmpty then []
     else [⟨leadingContent.take 5 ++ "...".data, leadingContent⟩])
      ++ structuredSections (full.drop i)

/-- The parser's instance state: the cumulative stream seen so far and the
number of sections already emitted. -/
structure ParserState where
  fullContent : Chars
  sectionsEmitted : Nat
deriving DecidableEq, Repr

/-- `processChunk`: stores the cumulative stream; with no marker no
sections are emitted; otherwise all sections except the last are complete
and the ones beyond the already-emitted count are emitted (and counted). -/
def processChunk (st : ParserState) (s : Chars) : ParserState × List ThinkingSection :=
  match findSub markerHash s with
  | none => (⟨s, st.sectionsEmitted⟩, [])
  | some _ =>
    let as := allSectionsOf s
    let cs := as.length - 1
    (⟨s, max st.sectionsEmitted cs⟩, (as.take cs).drop st.sectionsEmitted)

/-- The section list computed inside `finalizeBuffer` (it guards the
leading part with `firstMarkerIndex > 0` and falls back to one
unstructured section when no marker ever arrived). -/
def finalSections (full : Chars) : List ThinkingSection :=
  match findSub markerHash full with
  | some i =>
    (if i > 0 then
      (let leadingContent := trimJs (full.take i)
       if leadingContent.isEmpty then []
       else [⟨leadingContent.take 5 ++ "...".data, leadingContent⟩])
     else []) ++ structuredSections (full.drop i)
  | none =>
    if (trimJs full).isEmpty then []
    else [⟨(trimJs full).take 5 ++ "...".data, trimJs full⟩]

/-- `finalizeBuffer`: returns the final section when it has not been
emitted yet, an absent value otherwise. -/
def finalizeBuffer (st : ParserState) : Option ThinkingSection :=
  if st.sectionsEmitted < (finalSections st.fullContent).length then
    (finalSections st.fullContent).getLast?
  else none

/-- One streaming step: feed a cumulative snapshot to `processChunk` and
collect the emitted sections. -/
def runStep (acc : ParserState × List ThinkingSection) (s : Chars) :
    ParserState × List ThinkingSection :=
  let r := processChunk acc.1 s
  (r.1, acc.2 ++ r.2)

/-- Feeding a sequence of cumulative snapshots to one parser instance,
collecting all emitted sections in order. -/
def runParser (inputs : List Chars) : ParserState × List ThinkingSection :=
  inputs.foldl runStep (⟨[], 0⟩, [])

/-- The C3 example stream. -/
def streamS : Chars := "Intro\n### Step One\nDid X\n### Step Two\nDid Y".data

/-- Leading section of the C3 stream. -/
def introSec : ThinkingSection := ⟨"Intro...".data, "Intro".data⟩

/-- First structured section of the C3 stream. -/
def stepOneSec : ThinkingSection := ⟨"Step One".data, "Did X".data⟩

/-- Trailing section of the C3 stream. -/
def stepTwoSec : ThinkingSection := ⟨"Step Two".data, "Did Y".data⟩

/-- The two sections `processChunk` may emit for the C3 stream. -/
def secPair : List ThinkingSection := [introSec, stepOneSec]

/-- Invariant satisfied by every prefix of the C3 stream: the complete
(non-trailing) part of its parsed section list is a prefix of
`[introSec, stepOneSec]`. -/
def sectionPrefixFact (p : Chars) : Prop :=
  (allSectionsOf p).take ((allSectionsOf p).length - 1)
      = secPair.take ((allSectionsOf p).length - 1)
    ∧ (allSectionsOf p).length - 1 ≤ 2

instance (p : Chars) : Decidable (sectionPrefixFact p) :=
  inferInstanceAs (Decidable (_ ∧ _))

/-- The invariant holds for all 44 prefixes of the 43-character stream. -/
theorem sectionPrefixFact_all_prefixes :
    ∀ k, k < 44 → sectionPrefixFact (streamS.take k) := by
  decide

theorem processChunk_invariant (st : ParserState) (out : List ThinkingSection)
    (p : Chars) (hG : sectionPrefixFact p)
    (hout : out = secPair.take st.sectionsEmitted)
    (hle : st.sectionsEmitted ≤ 2) :
    out ++ (processChunk st p).2
        = secPair.take (processChunk st p).1.sectionsEmitted
      ∧ (processChunk st p).1.sectionsEmitted ≤ 2 := by
  obtain ⟨hpre, hcs⟩ := hG
  cases hfind : findSub markerHash p with
  | none => simp [processChunk, hfind, hout, hle]
  | some i =>
    simp only [processChunk, hfind]
    rcases Nat.le_total st.sectionsEmitted ((allSectionsOf p).length - 1) with hec | hce
    · constructor
      · rw [hout, hpre, Nat.max_eq_right hec]
        have h1 : secPair.take st.sectionsEmitted
            = (secPair.take ((allSectionsOf p).length - 1)).take st.sectionsEmitted := by
          rw [List.take_take, Nat.min_eq_left hec]
        rw [h1, List.take_append_drop]
      · rw [Nat.max_eq_right hec]; exact hcs
    · constructor
      · rw [hout, hpre, Nat.max_eq_left hce]
        have hlen : (secPair.take ((allSectionsOf p).length - 1)).length
            ≤ st.sectionsEmitted := by
          have := List.length_take_le ((allSectionsOf p).length - 1) secPair
          omega
        rw [List.drop_eq_nil_of_le hlen, List.append_nil]
      · rw [Nat.max_eq_left hce]; exact hle

theorem run_fold (ps : List Chars) :
    ∀ (st : ParserState) (out : List ThinkingSection),
      (∀ p ∈ ps, sectionPrefixFact p) →
      out = secPair.take st.sectionsEmitted → st.sectionsEmitted ≤ 2 →
      (ps.foldl runStep (st, out)).2
          = secPair.take (ps.foldl runStep (st, out)).1.sectionsEmitted
        ∧ (ps.foldl runStep (st, out)).1.sectionsEmitted ≤ 2 := by
  induction ps with
  | nil =>
    intro st out _ hout hle
    simpa using ⟨hout, hle⟩
  | cons p t ih =>
    intro st out hfacts hout hle
    rw [List.foldl_cons]
    obtain ⟨h1, h2⟩ :=
      processChunk_invariant st out p (hfacts p (List.mem_cons_self p t)) hout hle
    exact ih (processChunk st p).1 (out ++ (processChunk st p).2)
      (fun q hq => hfacts q (List.mem_cons_of_mem p hq)) h1 h2

theorem runParser_eq_foldl (inputs : List Chars) :
    runParser inputs = inputs.foldl runStep (⟨[], 0⟩, []) := rfl

/-- C3: feeding the stream
`"Intro\n### Step One\nDid X\n### Step Two\nDid Y"` to `processChunk` as
any append-only sequence of its prefixes ending with the full string emits
exactly, in order and each exactly once, the `Intro.../Intro` section and
the `Step One/Did X` section; the `Step Two/Did Y` section is returned
only by `finalizeBuffer` once the stream ends.  In general a call with a
marker present emits exactly the parsed sections beyond the
already-emitted count, excluding the trailing one, and `finalizeBuffer`
returns an absent value when the last section was already emitted. -/
theorem C3_thinking_trace_emission (ps : List Chars) (hps : ∀ p ∈ ps, p <+: streamS) :
    (runParser (ps ++ [streamS])).2 = [introSec, stepOneSec]
    ∧ finalizeBuffer (runParser (ps ++ [streamS])).1 = some stepTwoSec
    ∧ (∀ (st : ParserState) (s : Chars) (i : Nat),
        findSub markerHash s = some i →
        (processChunk st s).2
          = ((allSectionsOf s).take ((allSectionsOf s).length - 1)).drop
              st.sectionsEmitted)
    ∧ (∀ st : ParserState,
        (finalSections st.fullContent).length ≤ st.sectionsEmitted →
        finalizeBuffer st = none) := by
  have hfact : ∀ p ∈ ps, sectionPrefixFact p := by
    intro p hp
    have hpre := hps p hp
    have hlen : p.length ≤ 43 := by
      have := hpre.length_le
      simpa using this
    have htake : p = streamS.take p.length := by
      obtain ⟨t, ht⟩ := hpre
      conv_rhs => rw [← ht]
      rw [List.take_left]
    rw [htake]
    exact sectionPrefixFact_all_prefixes _ (by omega)
  have hrun : runParser (ps ++ [streamS])
      = runStep (ps.foldl runStep (⟨[], 0⟩, [])) streamS := by
    rw [runParser_eq_foldl, List.foldl_append, List.foldl_cons, List.foldl_nil]
  obtain ⟨hout, hle⟩ := run_fold ps ⟨[], 0⟩ [] hfact rfl (by decide)
  have hproc : ∀ st : ParserState, processChunk st streamS
      = (⟨streamS, max st.sectionsEmitted 2⟩, secPair.drop st.sectionsEmitted) :=
    fun _ => rfl
  refine ⟨?_, ?_, ?_, ?_⟩
  · rw [hrun]
    show (ps.foldl runStep (⟨[], 0⟩, [])).2
        ++ (processChunk (ps.foldl runStep (⟨[], 0⟩, [])).1 streamS).2
      = [introSec, stepOneSec]
    rw [hproc, hout]
    exact List.take_append_drop _ _
  · rw [hrun]
    show finalizeBuffer (processChunk (ps.foldl runStep (⟨[], 0⟩, [])).1 streamS).1
      = some stepTwoSec
    rw [hproc]
    show finalizeBuffer
        ⟨streamS, max (ps.foldl runStep (⟨[], 0⟩, [])).1.sectionsEmitted 2⟩
      = some stepTwoSec
    rw [Nat.max_eq_right hle]
    decide
  · intro st s i h
    simp [processChunk, h]
  · intro st h
    rw [finalizeBuffer, if_neg (by omega)]

/-- Witness for C3: the stream delivered as the prefix
`"Intro\n### Step"` followed by the full string. -/
theorem C3_thinking_trace_emission_witness :
    (runParser (["Intro\n### Step".data] ++ [streamS])).2 = [introSec, stepOneSec]
    ∧ finalizeBuffer
        (runParser (["Intro\n### Step".data] ++ [streamS])).1 = some stepTwoSec :=
  ⟨(C3_thinking_trace_emission ["Intro\n### Step".data] (by decide)).1,
    (C3_thinking_trace_emission ["Intro\n### Step".data] (by decide)).2.1⟩

end Baguettotron
